import Mathlib

/-!
A shallow embedding of the `ESHandler` buffering-and-flush engine of
`eslogging/handlers.py`, together with theorems checking the repository
specification against it.

Modelling conventions:
 - Python values occurring in log records are the inductive `Val`;
   a Python dict is an insertion-ordered association list `PyDict`.
 - The handler state (`_timer`, `_buffer`) is the structure `HState`;
   live `threading.Timer` instances are tracked by identifier so that
   timer-liveness invariants are expressible.  Externally visible effects
   (arming/cancelling a timer, the bulk network call, writing to the
   error stream) are recorded as an event list `Ev`.
 - The outcome of `elasticsearch.helpers.bulk` is a boolean parameter
   `bulkOk` of each operation that can reach the network.
 - `record.created` is modelled at microsecond resolution (a `Nat` count
   of microseconds since the epoch), the resolution of
   `datetime.datetime.utcfromtimestamp`.
-/

namespace ESLog

/-- Python values as they occur in log records: None, strings, integers,
tuples and lists. -/
inductive Val where
  | vnone : Val
  | vstr : String → Val
  | vint : Int → Val
  | vtup : List Val → Val
  | vlist : List Val → Val

mutual
/-- Model of Python str on a value.  Scalars render exactly as CPython
does; container elements are joined structurally (the exact quoting that
CPython repr applies inside containers is not needed by any claim). -/
def pyStr : Val → String
  | .vnone => "None"
  | .vstr s => s
  | .vint n => toString n
  | .vtup vs => "(" ++ String.intercalate ", " (pyStrList vs) ++ ")"
  | .vlist vs => "[" ++ String.intercalate ", " (pyStrList vs) ++ "]"

/-- The rendering of each element of a container value. -/
def pyStrList : List Val → List String
  | [] => []
  | v :: vs => pyStr v :: pyStrList vs
end

/-- Test for the Python identity check `value is None`. -/
def isNone : Val → Bool
  | .vnone => true
  | _ => false

/-- Model of Python iteration `for arg in value`: the element list for
iterable values (tuples, lists, strings, which yield one-character
strings), and `none` (a TypeError) otherwise. -/
def pyIterElems : Val → Option (List Val)
  | .vtup vs => some vs
  | .vlist vs => some vs
  | .vstr s => some (s.toList.map fun c => .vstr (String.singleton c))
  | .vnone => Option.none
  | .vint _ => Option.none

/-- A Python dict, as an insertion-ordered association list. -/
abbrev PyDict := List (String × Val)

/-- Python dict item assignment `d[k] = v`: replace the value at an
existing key, else append the new binding. -/
def setKey : PyDict → String → Val → PyDict
  | [], k, v => [(k, v)]
  | (k0, v0) :: rest, k, v =>
      if k0 = k then (k0, v) :: rest else (k0, v0) :: setKey rest k v

/-- Python dict key lookup. -/
def lookup : PyDict → String → Option Val
  | [], _ => Option.none
  | (k0, v0) :: rest, k => if k0 = k then some v0 else lookup rest k

/-- Python dict membership test `k in d`. -/
def hasKey (d : PyDict) (k : String) : Bool := (lookup d k).isSome

theorem lookup_setKey_self (d : PyDict) (k : String) (v : Val) :
    lookup (setKey d k v) k = some v := by
  induction d with
  | nil => simp [setKey, lookup]
  | cons p rest ih =>
      obtain ⟨k0, v0⟩ := p
      by_cases h : k0 = k <;> simp [setKey, lookup, h, ih]

theorem lookup_setKey_ne (d : PyDict) (k k1 : String) (v : Val) (hne : k ≠ k1) :
    lookup (setKey d k v) k1 = lookup d k1 := by
  induction d with
  | nil =>
      have h0 : ¬ k = k1 := hne
      simp [setKey, lookup, h0]
  | cons p rest ih =>
      obtain ⟨k0, v0⟩ := p
      by_cases h : k0 = k
      · subst h
        have h0 : ¬ k0 = k1 := hne
        simp [setKey, lookup, h0]
      · simp only [setKey, if_neg h, lookup]
        by_cases h1 : k0 = k1 <;> simp [h1, ih]

theorem hasKey_setKey_of_hasKey (d : PyDict) (k k1 : String) (v : Val)
    (h : hasKey d k1 = true) : hasKey (setKey d k v) k1 = true := by
  by_cases hk : k = k1
  · subst hk
    simp [hasKey, lookup_setKey_self]
  · simpa [hasKey, lookup_setKey_ne d k k1 v hk] using h

/-- Decimal digit characters of a natural number, most significant first,
computed with a structural fuel argument (any fuel above the digit count
gives the same answer). -/
def natDigitsAux : Nat → Nat → List Char
  | 0, _ => []
  | fuel + 1, n =>
      if n < 10 then [Nat.digitChar n]
      else natDigitsAux fuel (n / 10) ++ [Nat.digitChar (n % 10)]

/-- Decimal digit characters of a natural number, most significant first:
the model of CPython str on a nonnegative int and of the numeric fields
of strftime. -/
def natDigits (n : Nat) : List Char := natDigitsAux (n + 1) n

/-- Decimal rendering of a natural number. -/
def natStr (n : Nat) : String := ⟨natDigits n⟩

/-- Zero-padding of the decimal rendering of `n` to width `w`: the model
of the zero-padded strftime fields and of format specifier 03d. -/
def padZ (w n : Nat) : String :=
  ⟨List.replicate (w - (natDigits n).length) '0' ++ natDigits n⟩

theorem digitChar_isDigit {n : Nat} (h : n < 10) : (Nat.digitChar n).isDigit = true := by
  interval_cases n <;> decide

theorem natDigitsAux_all_digit (fuel : Nat) :
    ∀ n, ∀ c ∈ natDigitsAux fuel n, c.isDigit = true := by
  induction fuel with
  | zero => intro n c hc; simp [natDigitsAux] at hc
  | succ fuel ih =>
      intro n c hc
      simp only [natDigitsAux] at hc
      split at hc
      · next h =>
          simp only [List.mem_singleton] at hc
          subst hc
          exact digitChar_isDigit h
      · rcases List.mem_append.mp hc with h1 | h1
        · exact ih (n / 10) c h1
        · simp only [List.mem_singleton] at h1
          subst h1
          exact digitChar_isDigit (Nat.mod_lt _ (by omega))

theorem natDigits_all_digit (n : Nat) : ∀ c ∈ natDigits n, c.isDigit = true :=
  natDigitsAux_all_digit (n + 1) n

theorem natDigits_length_pos (n : Nat) : 0 < (natDigits n).length := by
  simp only [natDigits, natDigitsAux]
  split <;> simp

theorem natDigitsAux_length_le (fuel : Nat) : ∀ n w, 0 < w → n < 10 ^ w →
    (natDigitsAux fuel n).length ≤ w := by
  induction fuel with
  | zero => intro n w hw _; simp [natDigitsAux]
  | succ fuel ih =>
      intro n w hw hn
      simp only [natDigitsAux]
      split
      · simpa using hw
      · next h =>
          have hpow : 10 ^ w = 10 ^ (w - 1) * 10 := by
            conv_lhs => rw [show w = (w - 1) + 1 by omega]
            rw [pow_succ]
          rw [hpow] at hn
          by_cases hw1 : w = 1
          · subst hw1
            simp at hn
            omega
          · have := ih (n / 10) (w - 1) (by omega) (by omega)
            simp only [List.length_append, List.length_singleton]
            omega

theorem natDigits_length_le (w : Nat) (n : Nat) (hw : 0 < w) (hn : n < 10 ^ w) :
    (natDigits n).length ≤ w :=
  natDigitsAux_length_le (n + 1) n w hw hn

theorem natDigitsAux_length_ge (fuel : Nat) : ∀ n w, n < fuel → 10 ^ w ≤ n →
    w + 1 ≤ (natDigitsAux fuel n).length := by
  induction fuel with
  | zero => intro n w h _; omega
  | succ fuel ih =>
      intro n w hf hn
      simp only [natDigitsAux]
      split
      · next h =>
          have hw : w = 0 := by
            by_contra hw0
            have h1 : (10:Nat) ≤ 10 ^ w := by
              calc (10:Nat) = 10 ^ 1 := by norm_num
              _ ≤ 10 ^ w := Nat.pow_le_pow_right (by omega) (by omega)
            omega
          subst hw
          simp
      · next h =>
          cases w with
          | zero => simp only [List.length_append, List.length_singleton]; omega
          | succ w =>
              have hdiv10 : n / 10 < fuel := by omega
              have hge : 10 ^ w ≤ n / 10 := by
                rw [pow_succ] at hn
                omega
              have := ih (n / 10) w hdiv10 hge
              simp only [List.length_append, List.length_singleton]
              omega

theorem natDigits_length_ge (w : Nat) (n : Nat) (hn : 10 ^ w ≤ n) :
    w + 1 ≤ (natDigits n).length :=
  natDigitsAux_length_ge (n + 1) n w (by omega) hn

theorem natStr_length_four {n : Nat} (h1 : 1000 ≤ n) (h2 : n < 10000) :
    (natStr n).length = 4 := by
  have hle := natDigits_length_le 4 n (by omega) (by norm_num; omega)
  have hge := natDigits_length_ge 3 n (by norm_num; omega)
  simp only [natStr, String.length]
  omega

theorem padZ_length {w n : Nat} (h1 : 0 < w) (h2 : n < 10 ^ w) :
    (padZ w n).length = w := by
  have := natDigits_length_le w n h1 h2
  have := natDigits_length_pos n
  simp only [padZ, String.length, List.length_append, List.length_replicate]
  omega

/-- All characters of the string are decimal digits. -/
def allDigits (s : String) : Bool := s.toList.all Char.isDigit

theorem allDigits_natStr (n : Nat) : allDigits (natStr n) = true := by
  simp only [allDigits, natStr, List.all_eq_true]
  intro c hc
  exact natDigits_all_digit n c hc

theorem allDigits_padZ (w n : Nat) : allDigits (padZ w n) = true := by
  simp only [allDigits, padZ, List.all_eq_true]
  intro c hc
  rcases List.mem_append.mp hc with h | h
  · simp only [List.mem_replicate] at h
    rw [h.2]
    decide
  · exact natDigits_all_digit n c h

/-- Proleptic-Gregorian civil date (year, month, day) of a count of days
since 1970-01-01, the calendar part of datetime.datetime.utcfromtimestamp
for nonnegative timestamps. -/
def civilFromDays (z0 : Nat) : Nat × Nat × Nat :=
  let z := z0 + 719468
  let era := z / 146097
  let doe := z % 146097
  let yoe := (doe - doe / 1460 + doe / 36524 - doe / 146096) / 365
  let y := yoe + era * 400
  let doy := doe - (365 * yoe + yoe / 4 - yoe / 100)
  let mp := (5 * doy + 2) / 153
  let d := doy - (153 * mp + 2) / 5 + 1
  let m := if mp < 10 then mp + 3 else mp - 9
  (if m ≤ 2 then y + 1 else y, m, d)

theorem civilFromDays_year_lb (z0 : Nat) : 1600 ≤ (civilFromDays z0).1 := by
  simp only [civilFromDays]
  split <;> split <;> omega

theorem civilFromDays_month_lt (z0 : Nat) : (civilFromDays z0).2.1 < 100 := by
  simp only [civilFromDays]
  split <;> omega

theorem civilFromDays_day_lt (z0 : Nat) : (civilFromDays z0).2.2 < 100 := by
  simp only [civilFromDays]
  omega

/-- Model of ESHandler._get_es_datetime_str: the UTC rendering
`strftime(%Y-%m-%dT%H:%M:%S)` of the timestamp followed by the truncated
millisecond field `.mmm` and a trailing Z, for a creation timestamp given
in microseconds since the epoch. -/
def esDatetimeStr (us : Nat) : String :=
  let ymd := civilFromDays (us / 86400000000)
  let secOfDay := us / 1000000 % 86400
  natStr ymd.1 ++ "-" ++ padZ 2 ymd.2.1 ++ "-" ++ padZ 2 ymd.2.2 ++ "T" ++
    padZ 2 (secOfDay / 3600) ++ ":" ++ padZ 2 (secOfDay % 3600 / 60) ++ ":" ++
    padZ 2 (secOfDay % 60) ++ "." ++ padZ 3 (us % 1000000 / 1000) ++ "Z"

/-- The shape required of the timestamp rendering: four year digits, then
zero-padded two-digit month, day, hour, minute and second and a three-digit
millisecond field, with the literal separators and the trailing Z. -/
def IsEsDatetimeShape (t : String) : Prop :=
  ∃ ys mos ds hs mins ss mss : String,
    t = ys ++ "-" ++ mos ++ "-" ++ ds ++ "T" ++ hs ++ ":" ++ mins ++ ":" ++
      ss ++ "." ++ mss ++ "Z" ∧
    ys.length = 4 ∧ mos.length = 2 ∧ ds.length = 2 ∧ hs.length = 2 ∧
    mins.length = 2 ∧ ss.length = 2 ∧ mss.length = 3 ∧
    allDigits ys = true ∧ allDigits mos = true ∧ allDigits ds = true ∧
    allDigits hs = true ∧ allDigits mins = true ∧ allDigits ss = true ∧
    allDigits mss = true

theorem esDatetimeStr_shape (us : Nat)
    (hy : (civilFromDays (us / 86400000000)).1 < 10000) :
    IsEsDatetimeShape (esDatetimeStr us) := by
  refine ⟨natStr (civilFromDays (us / 86400000000)).1,
    padZ 2 (civilFromDays (us / 86400000000)).2.1,
    padZ 2 (civilFromDays (us / 86400000000)).2.2,
    padZ 2 (us / 1000000 % 86400 / 3600),
    padZ 2 (us / 1000000 % 86400 % 3600 / 60),
    padZ 2 (us / 1000000 % 86400 % 60),
    padZ 3 (us % 1000000 / 1000),
    rfl, ?_, ?_, ?_, ?_, ?_, ?_, ?_,
    allDigits_natStr _, allDigits_padZ _ _, allDigits_padZ _ _,
    allDigits_padZ _ _, allDigits_padZ _ _, allDigits_padZ _ _,
    allDigits_padZ _ _⟩
  · exact natStr_length_four (by have := civilFromDays_year_lb (us / 86400000000); omega) hy
  · exact padZ_length (by omega) (by have := civilFromDays_month_lt (us / 86400000000); norm_num; omega)
  · exact padZ_length (by omega) (by have := civilFromDays_day_lt (us / 86400000000); norm_num; omega)
  · exact padZ_length (by omega) (by norm_num; omega)
  · exact padZ_length (by omega) (by norm_num; omega)
  · exact padZ_length (by omega) (by norm_num; omega)
  · exact padZ_length (by omega) (by norm_num; omega)

/-- Weekday of a day count since the epoch with Monday = 0, the model of
datetime.weekday; 1970-01-01 was a Thursday (weekday 3). -/
def weekdayOf (days : Nat) : Nat := (days + 3) % 7

/-- strftime %Y.%m.%d of a day count since the epoch. -/
def fmtYMDdot (days : Nat) : String :=
  natStr (civilFromDays days).1 ++ "." ++ padZ 2 (civilFromDays days).2.1 ++
    "." ++ padZ 2 (civilFromDays days).2.2

/-- strftime %Y.%m of a day count since the epoch. -/
def fmtYMdot (days : Nat) : String :=
  natStr (civilFromDays days).1 ++ "." ++ padZ 2 (civilFromDays days).2.1

/-- Model of ESHandler._get_daily_index_name; the ambient
datetime.datetime.now() is made an explicit day-count parameter. -/
def getDailyIndexName (esIndexName : String) (today : Nat) : String :=
  esIndexName ++ "-" ++ fmtYMDdot today

/-- Model of ESHandler._get_weekly_index_name: suffix the date of the
Monday of the current week, today minus today's weekday offset. -/
def getWeeklyIndexName (esIndexName : String) (today : Nat) : String :=
  esIndexName ++ "-" ++ fmtYMDdot (today - weekdayOf today)

/-- Model of ESHandler._get_monthly_index_name. -/
def getMonthlyIndexName (esIndexName : String) (today : Nat) : String :=
  esIndexName ++ "-" ++ fmtYMdot today

/-- Model of ESHandler._get_yearly_index_name. -/
def getYearlyIndexName (esIndexName : String) (today : Nat) : String :=
  esIndexName ++ "-" ++ natStr (civilFromDays today).1

/-- Model of ESHandler._get_unchanged_index_name. -/
def getUnchangedIndexName (esIndexName : String) (_today : Nat) : String :=
  esIndexName

/-- The five index-naming policies of ESHandler.IndexNameFrequency. -/
inductive IndexNameFrequency where
  | noFreq | daily | weekly | monthly | yearly
  deriving DecidableEq

/-- Model of ESHandler._INDEX_FREQUENCY_FUNCION_DICT. -/
def indexFrequencyFunc : IndexNameFrequency → String → Nat → String
  | .noFreq => getUnchangedIndexName
  | .daily => getDailyIndexName
  | .weekly => getWeeklyIndexName
  | .monthly => getMonthlyIndexName
  | .yearly => getYearlyIndexName

/-- Model of ESHandler.__LOGGING_FILTER_FIELDS, the deny-list of record
attributes excluded from the normalized entry. -/
def loggingFilterFields : List String :=
  ["msecs", "relativeCreated", "levelno", "created"]

/-- The Python exceptions the embedding distinguishes: the TypeError of
iterating a non-iterable args value, and any exception escaping the
eshelpers.bulk transmission. -/
inductive PyErr where
  | typeError
  | transmission

/-- Python `"" if value is None else value` (line 379). -/
def noneToEmpty (v : Val) : Val := if isNone v then Val.vstr "" else v

/-- The record-attribute loop of ESHandler.emit (lines 375-379): walk
record.__dict__ in order, skip deny-listed keys, replace the args value
by the tuple of the str of its elements (a TypeError if args is not
iterable), and store None values as the empty string. -/
def applyRecord (d : PyDict) : List (String × Val) → Except PyErr PyDict
  | [] => .ok d
  | (k, v) :: rest =>
      if k ∈ loggingFilterFields then applyRecord d rest
      else
        if k = "args" then
          match pyIterElems v with
          | some es =>
              applyRecord
                (setKey d k (noneToEmpty (Val.vtup (es.map fun e => Val.vstr (pyStr e))))) rest
          | Option.none => .error .typeError
        else applyRecord (setKey d k (noneToEmpty v)) rest

/-- The entry-building part of ESHandler.emit (lines 374-380): start from
a copy of es_additional_fields, copy the record attributes, then set the
timestamp field. -/
def emitRec (fields : PyDict) (tsField : String) (recDict : List (String × Val))
    (createdUs : Nat) : Except PyErr PyDict :=
  match applyRecord fields recDict with
  | .ok d => .ok (setKey d tsField (Val.vstr (esDatetimeStr createdUs)))
  | .error e => .error e

/-- The immutable handler configuration the flush engine reads. -/
structure Config where
  bufferSize : Nat
  timedFlush : Bool
  raiseOn : Bool
  fields : PyDict
  tsField : String

/-- Mutable handler state: the _timer handle (as a timer id), the ids of
live (armed, not yet fired or cancelled) threading.Timer instances, a
fresh-id counter, and the _buffer. -/
structure HState where
  handle : Option Nat
  live : List Nat
  nextId : Nat
  buffer : List PyDict

/-- Externally visible effects of an operation, in order. -/
inductive Ev where
  | cancelTimer : Ev
  | armTimer : Ev
  | bulkSend : List PyDict → Ev
  | errLog : Ev

/-- Result of an operation: normal return, or a propagated exception. -/
inductive Res where
  | ok : HState → List Ev → Res
  | raised : PyErr → HState → List Ev → Res

/-- The state a result leaves the handler in. -/
def Res.state : Res → HState
  | .ok s _ => s
  | .raised _ s _ => s

/-- Model of ESHandler._schedule_flush (lines 254-258): arm a new timer
only when the handle is empty. -/
def scheduleFlush (s : HState) : HState × List Ev :=
  match s.handle with
  | some _ => (s, [])
  | Option.none =>
      let s1 : HState :=
        { s with
          handle := some s.nextId
          live := s.live ++ [s.nextId]
          nextId := s.nextId + 1 }
      (s1, [Ev.armTimer])

/-- Lines 329-331 of ESHandler.flush: cancel the timer when the handle is
set and the timer is alive, then null the handle. -/
def cancelAndClearTimer (s : HState) : HState × List Ev :=
  match s.handle with
  | some t =>
      if t ∈ s.live then
        ({ s with handle := Option.none, live := s.live.erase t }, [Ev.cancelTimer])
      else ({ s with handle := Option.none }, [])
  | Option.none => (s, [])

/-- Model of ESHandler.flush (lines 328-356); bulkOk is the outcome of
the eshelpers.bulk call.  On success the buffer is emptied; on a failure
under raise_on_indexing_exceptions the exception propagates; otherwise
the traceback goes to the error stream and _schedule_flush re-arms. -/
def flush (cfg : Config) (bulkOk : Bool) (s : HState) : Res :=
  let s1 := (cancelAndClearTimer s).1
  let evs1 := (cancelAndClearTimer s).2
  if s1.buffer.isEmpty then .ok s1 evs1
  else if bulkOk then .ok { s1 with buffer := [] } (evs1 ++ [Ev.bulkSend s1.buffer])
  else if cfg.raiseOn then .raised .transmission s1 (evs1 ++ [Ev.bulkSend s1.buffer])
  else
    .ok (scheduleFlush s1).1
      (evs1 ++ [Ev.bulkSend s1.buffer] ++ [Ev.errLog] ++ (scheduleFlush s1).2)

/-- Model of ESHandler.close (lines 358-362): flush when the handle is
set, then null the handle (without cancelling; the null is skipped when
the flush raised). -/
def close (cfg : Config) (bulkOk : Bool) (s : HState) : Res :=
  match s.handle with
  | some _ =>
      match flush cfg bulkOk s with
      | .ok s1 evs => .ok { s1 with handle := Option.none } evs
      | .raised e s1 evs => .raised e s1 evs
  | Option.none => .ok { s with handle := Option.none } []

/-- Model of ESHandler._try_flush (lines 364-368). -/
def tryFlush (cfg : Config) (bulkOk : Bool) (s : HState) : Res :=
  if cfg.bufferSize ≤ s.buffer.length ∧ cfg.timedFlush = false then flush cfg bulkOk s
  else .ok (scheduleFlush s).1 (scheduleFlush s).2

/-- Model of ESHandler.emit (lines 370-384): normalize the record, append
under the buffer lock, then _try_flush. -/
def emit (cfg : Config) (bulkOk : Bool) (s : HState) (recDict : List (String × Val))
    (createdUs : Nat) : Res :=
  match emitRec cfg.fields cfg.tsField recDict createdUs with
  | .error e => .raised e s []
  | .ok entry => tryFlush cfg bulkOk { s with buffer := s.buffer ++ [entry] }

/-- A heap of Python dict objects addressed by allocation index: the
machinery needed to state that the constructor does not mutate the
object passed as es_additional_fields. -/
abbrev Heap := List PyDict

/-- Dereference a dict object. -/
def heapGet (h : Heap) (r : Nat) : PyDict := h.getD r []

/-- Overwrite a dict object in place. -/
def heapSet (h : Heap) (r : Nat) (d : PyDict) : Heap := h.set r d

/-- Allocate a fresh dict object. -/
def heapAlloc (h : Heap) (d : PyDict) : Heap × Nat := (h ++ [d], h.length)

/-- Model of lines 220-237 of ESHandler.__init__: bind
self.es_additional_fields to a fresh empty dict when the argument is
None, else to a copy of the caller's dict, then update that object in
place with the host and host_ip keys. -/
def initAdditionalFields (h : Heap) (callerRef : Option Nat) (host hostIp : String) :
    Heap × Nat :=
  let alloc :=
    match callerRef with
    | Option.none => heapAlloc h []
    | some r => heapAlloc h (heapGet h r)
  (heapSet alloc.1 alloc.2
    (setKey (setKey (heapGet alloc.1 alloc.2) "host" (Val.vstr host))
      "host_ip" (Val.vstr hostIp)), alloc.2)

/-- Handler state right after construction (lines 245-247). -/
def initState : HState :=
  { handle := Option.none, live := [], nextId := 0, buffer := [] }

/-- One sequential step of the handler: a producer emit, an explicit
flush, a close, or the firing of a live timer (the firing Timer leaves
the live set and its thread runs flush). -/
inductive Step (cfg : Config) : HState → HState → Prop where
  | stepEmit : ∀ s recDict createdUs bulkOk,
      Step cfg s (emit cfg bulkOk s recDict createdUs).state
  | stepFlush : ∀ s bulkOk, Step cfg s (flush cfg bulkOk s).state
  | stepClose : ∀ s bulkOk, Step cfg s (close cfg bulkOk s).state
  | stepFire : ∀ s t bulkOk, t ∈ s.live →
      Step cfg s (flush cfg bulkOk { s with live := s.live.erase t }).state

/-- The states reachable from construction. -/
inductive Reach (cfg : Config) : HState → Prop where
  | init : Reach cfg initState
  | step : ∀ s s1, Reach cfg s → Step cfg s s1 → Reach cfg s1

/-- A handler step that is not a close. -/
inductive StepNC (cfg : Config) : HState → HState → Prop where
  | stepEmit : ∀ s recDict createdUs bulkOk,
      StepNC cfg s (emit cfg bulkOk s recDict createdUs).state
  | stepFlush : ∀ s bulkOk, StepNC cfg s (flush cfg bulkOk s).state
  | stepFire : ∀ s t bulkOk, t ∈ s.live →
      StepNC cfg s (flush cfg bulkOk { s with live := s.live.erase t }).state

/-- The states reachable from construction without calling close. -/
inductive ReachNC (cfg : Config) : HState → Prop where
  | init : ReachNC cfg initState
  | step : ∀ s s1, ReachNC cfg s → StepNC cfg s s1 → ReachNC cfg s1

theorem cancelAndClearTimer_handle (s : HState) :
    (cancelAndClearTimer s).1.handle = Option.none := by
  cases hh : s.handle with
  | none => simp [cancelAndClearTimer, hh]
  | some t =>
      simp only [cancelAndClearTimer, hh]
      split <;> rfl

theorem cancelAndClearTimer_buffer (s : HState) :
    (cancelAndClearTimer s).1.buffer = s.buffer := by
  cases hh : s.handle with
  | none => simp [cancelAndClearTimer, hh]
  | some t =>
      simp only [cancelAndClearTimer, hh]
      split <;> rfl

theorem scheduleFlush_buffer (s : HState) : (scheduleFlush s).1.buffer = s.buffer := by
  cases hh : s.handle <;> simp [scheduleFlush, hh]

theorem scheduleFlush_of_isSome (s : HState) (h : s.handle.isSome = true) :
    scheduleFlush s = (s, []) := by
  cases hh : s.handle with
  | none => rw [hh] at h; simp at h
  | some t => simp [scheduleFlush, hh]

theorem scheduleFlush_of_none (s : HState) (h : s.handle = Option.none) :
    (scheduleFlush s).1.handle = some s.nextId ∧
    (scheduleFlush s).1.live = s.live ++ [s.nextId] ∧
    (scheduleFlush s).2 = [Ev.armTimer] := by
  simp [scheduleFlush, h]

theorem scheduleFlush_events (s : HState) (b : List PyDict) :
    Ev.bulkSend b ∉ (scheduleFlush s).2 ∧ Ev.errLog ∉ (scheduleFlush s).2 := by
  cases hh : s.handle <;> simp [scheduleFlush, hh]

theorem cancelAndClearTimer_events (s : HState) (b : List PyDict) :
    Ev.bulkSend b ∉ (cancelAndClearTimer s).2 ∧ Ev.armTimer ∉ (cancelAndClearTimer s).2 := by
  cases hh : s.handle with
  | none => simp [cancelAndClearTimer, hh]
  | some t =>
      simp only [cancelAndClearTimer, hh]
      split <;> simp

/-- The timer-handle invariant of a quiescent handler: the handle names
the unique live timer, and no timer is live when the handle is empty. -/
def TimerInv (s : HState) : Prop :=
  (∀ t, s.handle = some t → s.live = [t]) ∧ (s.handle = Option.none → s.live = [])

/-- The shape holding right after a timer has fired (the firing timer has
left the live set while the handle may still name it). -/
def PostFire (s : HState) : Prop :=
  s.live = [] ∨ ∃ t, s.handle = some t ∧ s.live = [t]

theorem timerInv_initState : TimerInv initState :=
  ⟨fun t h => by simp [initState] at h, fun _ => rfl⟩

theorem timerInv_postFire (s : HState) (h : TimerInv s) : PostFire s := by
  cases hh : s.handle with
  | none => exact Or.inl (h.2 hh)
  | some t => exact Or.inr ⟨t, hh, h.1 t hh⟩

theorem timerInv_length (s : HState) (h : TimerInv s) : s.live.length ≤ 1 := by
  cases hh : s.handle with
  | none => rw [h.2 hh]; simp
  | some t => rw [h.1 t hh]; simp

theorem postFire_cancel_live (s : HState) (h : PostFire s) :
    (cancelAndClearTimer s).1.live = [] := by
  cases hh : s.handle with
  | none =>
      rcases h with h0 | ⟨t, ht, _⟩
      · simpa [cancelAndClearTimer, hh] using h0
      · rw [hh] at ht; cases ht
  | some t =>
      simp only [cancelAndClearTimer, hh]
      rcases h with h0 | ⟨t1, ht, hl⟩
      · rw [h0]; split <;> simp [h0]
      · rw [hh] at ht
        cases ht
        rw [hl]
        split <;> simp_all

theorem timerInv_buffer (s : HState) (b : List PyDict) (h : TimerInv s) :
    TimerInv { s with buffer := b } := h

theorem scheduleFlush_timerInv (s : HState) (h : TimerInv s) :
    TimerInv (scheduleFlush s).1 := by
  cases hh : s.handle with
  | some t => simpa [scheduleFlush, hh] using h
  | none =>
      simp only [scheduleFlush, hh]
      refine ⟨fun t ht => ?_, fun hc => ?_⟩
      · simp only [Option.some.injEq] at ht
        rw [h.2 hh, ht]
        rfl
      · simp at hc

theorem flush_timerInv (cfg : Config) (bulkOk : Bool) (s : HState) (h : PostFire s) :
    TimerInv (flush cfg bulkOk s).state := by
  have hl := postFire_cancel_live s h
  have hh := cancelAndClearTimer_handle s
  have hinv : TimerInv (cancelAndClearTimer s).1 := by
    constructor
    · intro t ht
      rw [hh] at ht
      cases ht
    · intro _
      exact hl
  simp only [flush]
  split
  · exact hinv
  · split
    · exact hinv
    · split
      · exact hinv
      · exact scheduleFlush_timerInv _ hinv

theorem tryFlush_timerInv (cfg : Config) (bulkOk : Bool) (s : HState) (h : TimerInv s) :
    TimerInv (tryFlush cfg bulkOk s).state := by
  unfold tryFlush
  split
  · exact flush_timerInv cfg bulkOk s (timerInv_postFire s h)
  · exact scheduleFlush_timerInv s h

theorem emit_timerInv (cfg : Config) (bulkOk : Bool) (s : HState)
    (recDict : List (String × Val)) (createdUs : Nat) (h : TimerInv s) :
    TimerInv (emit cfg bulkOk s recDict createdUs).state := by
  unfold emit
  split
  · exact h
  · exact tryFlush_timerInv cfg bulkOk _ h

theorem fire_timerInv (cfg : Config) (bulkOk : Bool) (s : HState) (t : Nat)
    (ht : t ∈ s.live) (h : TimerInv s) :
    TimerInv (flush cfg bulkOk { s with live := s.live.erase t }).state := by
  apply flush_timerInv
  cases hh : s.handle with
  | none =>
      rw [h.2 hh] at ht
      cases ht
  | some t0 =>
      left
      have hl := h.1 t0 hh
      rw [hl] at ht
      simp only [List.mem_singleton] at ht
      subst ht
      simp [hl]

theorem reachNC_timerInv (cfg : Config) (s : HState) (h : ReachNC cfg s) : TimerInv s := by
  induction h with
  | init => exact timerInv_initState
  | step s0 s1 _ hstep ih =>
      cases hstep with
      | stepEmit recDict createdUs bulkOk => exact emit_timerInv cfg bulkOk s0 recDict createdUs ih
      | stepFlush bulkOk => exact flush_timerInv cfg bulkOk s0 (timerInv_postFire s0 ih)
      | stepFire t bulkOk ht => exact fire_timerInv cfg bulkOk s0 t ht ih

theorem isEmpty_true_iff (l : List PyDict) : l.isEmpty = true ↔ l = [] := by
  cases l <;> simp

theorem flush_no_raise (cfg : Config) (bulkOk : Bool) (s : HState)
    (h : cfg.raiseOn = false ∨ bulkOk = true) :
    ∃ s1 evs, flush cfg bulkOk s = Res.ok s1 evs := by
  simp only [flush]
  split
  · exact ⟨_, _, rfl⟩
  · split
    · exact ⟨_, _, rfl⟩
    · split
      · next hb hr =>
          rcases h with h0 | h0
          · simp [h0] at hr
          · exact absurd h0 hb
      · exact ⟨_, _, rfl⟩

theorem flush_empty (cfg : Config) (bulkOk : Bool) (s : HState) (hb : s.buffer = []) :
    flush cfg bulkOk s = Res.ok (cancelAndClearTimer s).1 (cancelAndClearTimer s).2 := by
  have hie : (cancelAndClearTimer s).1.buffer.isEmpty = true := by
    rw [cancelAndClearTimer_buffer s, hb]
    rfl
  simp only [flush, hie, if_true]

theorem flush_success (cfg : Config) (s : HState) (hb : s.buffer ≠ []) :
    flush cfg true s =
      Res.ok { (cancelAndClearTimer s).1 with buffer := [] }
        ((cancelAndClearTimer s).2 ++ [Ev.bulkSend s.buffer]) := by
  have hne : (cancelAndClearTimer s).1.buffer.isEmpty = false := by
    rw [cancelAndClearTimer_buffer s]
    cases hbb : s.buffer with
    | nil => exact absurd hbb hb
    | cons a l => rfl
  simp [flush, hne, hb, cancelAndClearTimer_buffer s]

theorem flush_fail_raise (cfg : Config) (s : HState)
    (hr : cfg.raiseOn = true) (hb : s.buffer ≠ []) :
    flush cfg false s =
      Res.raised PyErr.transmission (cancelAndClearTimer s).1
        ((cancelAndClearTimer s).2 ++ [Ev.bulkSend s.buffer]) := by
  have hne : (cancelAndClearTimer s).1.buffer.isEmpty = false := by
    rw [cancelAndClearTimer_buffer s]
    cases hbb : s.buffer with
    | nil => exact absurd hbb hb
    | cons a l => rfl
  simp [flush, hne, hr, hb, cancelAndClearTimer_buffer s]

theorem flush_fail_noraise (cfg : Config) (s : HState)
    (hr : cfg.raiseOn = false) (hb : s.buffer ≠ []) :
    flush cfg false s =
      Res.ok (scheduleFlush (cancelAndClearTimer s).1).1
        ((cancelAndClearTimer s).2 ++ [Ev.bulkSend s.buffer] ++ [Ev.errLog] ++
          (scheduleFlush (cancelAndClearTimer s).1).2) := by
  have hne : (cancelAndClearTimer s).1.buffer.isEmpty = false := by
    rw [cancelAndClearTimer_buffer s]
    cases hbb : s.buffer with
    | nil => exact absurd hbb hb
    | cons a l => rfl
  simp [flush, hne, hr, hb, cancelAndClearTimer_buffer s]

theorem applyRecord_untouched (l : List (String × Val)) :
    ∀ d d1, applyRecord d l = .ok d1 → ∀ k, k ∉ l.map Prod.fst →
      lookup d1 k = lookup d k := by
  induction l with
  | nil =>
      intro d d1 h k _
      simp only [applyRecord] at h
      cases h
      rfl
  | cons p rest ih =>
      intro d d1 h k hk
      obtain ⟨k0, v0⟩ := p
      simp only [List.map_cons, List.mem_cons] at hk
      push_neg at hk
      obtain ⟨hk0, hkrest⟩ := hk
      simp only [applyRecord] at h
      by_cases hf : k0 ∈ loggingFilterFields
      · rw [if_pos hf] at h
        exact ih d d1 h k hkrest
      · rw [if_neg hf] at h
        by_cases ha : k0 = "args"
        · rw [if_pos ha] at h
          cases hit : pyIterElems v0 with
          | none => rw [hit] at h; cases h
          | some es =>
              rw [hit] at h
              rw [ih _ d1 h k hkrest, lookup_setKey_ne _ _ _ _ (Ne.symm hk0)]
        · rw [if_neg ha] at h
          rw [ih _ d1 h k hkrest, lookup_setKey_ne _ _ _ _ (Ne.symm hk0)]

theorem applyRecord_filtered (l : List (String × Val)) :
    ∀ d d1, applyRecord d l = .ok d1 → ∀ k, k ∈ loggingFilterFields →
      lookup d1 k = lookup d k := by
  induction l with
  | nil =>
      intro d d1 h k _
      simp only [applyRecord] at h
      cases h
      rfl
  | cons p rest ih =>
      intro d d1 h k hk
      obtain ⟨k0, v0⟩ := p
      simp only [applyRecord] at h
      by_cases hf : k0 ∈ loggingFilterFields
      · rw [if_pos hf] at h
        exact ih d d1 h k hk
      · have hne : k0 ≠ k := fun he => hf (he ▸ hk)
        rw [if_neg hf] at h
        by_cases ha : k0 = "args"
        · rw [if_pos ha] at h
          cases hit : pyIterElems v0 with
          | none => rw [hit] at h; cases h
          | some es =>
              rw [hit] at h
              rw [ih _ d1 h k hk, lookup_setKey_ne _ _ _ _ hne]
        · rw [if_neg ha] at h
          rw [ih _ d1 h k hk, lookup_setKey_ne _ _ _ _ hne]

theorem applyRecord_mem (l : List (String × Val)) :
    ∀ d d1, applyRecord d l = .ok d1 → (l.map Prod.fst).Nodup →
      ∀ k v, (k, v) ∈ l → k ∉ loggingFilterFields → k ≠ "args" →
        lookup d1 k = some (noneToEmpty v) := by
  induction l with
  | nil => intro d d1 _ _ k v hm; cases hm
  | cons p rest ih =>
      intro d d1 h hnd k v hm hf ha
      obtain ⟨k0, v0⟩ := p
      simp only [List.map_cons, List.nodup_cons] at hnd
      simp only [applyRecord] at h
      rcases List.mem_cons.mp hm with heq | hmr
      · cases heq
        rw [if_neg hf, if_neg ha] at h
        rw [applyRecord_untouched rest _ d1 h k hnd.1, lookup_setKey_self]
      · by_cases hf0 : k0 ∈ loggingFilterFields
        · rw [if_pos hf0] at h
          exact ih d d1 h hnd.2 k v hmr hf ha
        · rw [if_neg hf0] at h
          by_cases ha0 : k0 = "args"
          · rw [if_pos ha0] at h
            cases hit : pyIterElems v0 with
            | none => rw [hit] at h; cases h
            | some es => rw [hit] at h; exact ih _ d1 h hnd.2 k v hmr hf ha
          · rw [if_neg ha0] at h
            exact ih _ d1 h hnd.2 k v hmr hf ha

theorem applyRecord_args (l : List (String × Val)) :
    ∀ d d1, applyRecord d l = .ok d1 → (l.map Prod.fst).Nodup →
      ∀ v es, ("args", v) ∈ l → pyIterElems v = some es →
        lookup d1 "args" =
          some (noneToEmpty (Val.vtup (es.map fun e => Val.vstr (pyStr e)))) := by
  induction l with
  | nil => intro d d1 _ _ v es hm; cases hm
  | cons p rest ih =>
      intro d d1 h hnd v es hm hit
      obtain ⟨k0, v0⟩ := p
      simp only [List.map_cons, List.nodup_cons] at hnd
      simp only [applyRecord] at h
      rcases List.mem_cons.mp hm with heq | hmr
      · cases heq
        rw [if_neg (by decide), if_pos rfl, hit] at h
        rw [applyRecord_untouched rest _ d1 h _ hnd.1, lookup_setKey_self]
      · by_cases hf0 : k0 ∈ loggingFilterFields
        · rw [if_pos hf0] at h
          exact ih d d1 h hnd.2 v es hmr hit
        · rw [if_neg hf0] at h
          by_cases ha0 : k0 = "args"
          · rw [if_pos ha0] at h
            cases hit0 : pyIterElems v0 with
            | none => rw [hit0] at h; cases h
            | some es0 => rw [hit0] at h; exact ih _ d1 h hnd.2 v es hmr hit
          · rw [if_neg ha0] at h
            exact ih _ d1 h hnd.2 v es hmr hit

theorem applyRecord_hasKey (l : List (String × Val)) :
    ∀ d d1, applyRecord d l = .ok d1 → ∀ k, hasKey d k = true → hasKey d1 k = true := by
  induction l with
  | nil =>
      intro d d1 h k hk
      simp only [applyRecord] at h
      cases h
      exact hk
  | cons p rest ih =>
      intro d d1 h k hk
      obtain ⟨k0, v0⟩ := p
      simp only [applyRecord] at h
      by_cases hf : k0 ∈ loggingFilterFields
      · rw [if_pos hf] at h
        exact ih d d1 h k hk
      · rw [if_neg hf] at h
        by_cases ha : k0 = "args"
        · rw [if_pos ha] at h
          cases hit : pyIterElems v0 with
          | none => rw [hit] at h; cases h
          | some es =>
              rw [hit] at h
              exact ih _ d1 h k (hasKey_setKey_of_hasKey d k0 k _ hk)
        · rw [if_neg ha] at h
          exact ih _ d1 h k (hasKey_setKey_of_hasKey d k0 k _ hk)

theorem emitRec_ok_elim (fields : PyDict) (tsField : String)
    (recDict : List (String × Val)) (createdUs : Nat) (entry : PyDict)
    (hok : emitRec fields tsField recDict createdUs = .ok entry) :
    ∃ d1, applyRecord fields recDict = .ok d1 ∧
      entry = setKey d1 tsField (Val.vstr (esDatetimeStr createdUs)) := by
  unfold emitRec at hok
  cases h : applyRecord fields recDict with
  | ok d1 =>
      rw [h] at hok
      cases hok
      exact ⟨d1, rfl, rfl⟩
  | error e => rw [h] at hok; cases hok

theorem getD_set_ne (d : PyDict) :
    ∀ (l : Heap) (i j : Nat), i ≠ j → List.getD (l.set i d) j [] = List.getD l j [] := by
  intro l
  induction l with
  | nil => intro i j _; simp
  | cons a l ih =>
      intro i j hne
      cases i with
      | zero =>
          cases j with
          | zero => exact absurd rfl hne
          | succ j => simp [List.getD]
      | succ i =>
          cases j with
          | zero => simp [List.getD]
          | succ j => simpa [List.getD] using ih i j (by omega)

theorem getD_set_self (d : PyDict) :
    ∀ (l : Heap) (i : Nat), i < l.length → List.getD (l.set i d) i [] = d := by
  intro l
  induction l with
  | nil => intro i hi; simp at hi
  | cons a l ih =>
      intro i hi
      cases i with
      | zero => simp [List.getD]
      | succ i => simpa [List.getD] using ih i (by simpa using hi)

theorem getD_append_length (x : PyDict) (l : Heap) :
    List.getD (l ++ [x]) l.length [] = x := by
  induction l with
  | nil => rfl
  | cons a l ih => simpa only [List.cons_append, List.length_cons, List.getD] using ih

theorem getD_append_lt (x : PyDict) :
    ∀ (l : Heap) (r : Nat), r < l.length →
      List.getD (l ++ [x]) r [] = List.getD l r [] := by
  intro l
  induction l with
  | nil => intro r hr; simp at hr
  | cons a l ih =>
      intro r hr
      cases r with
      | zero => rfl
      | succ r => simpa [List.getD] using ih r (by simpa using hr)

/-- Static additional fields (after construction) used in the concrete
scenarios. -/
def fieldsW : PyDict := [("host", Val.vstr "h"), ("host_ip", Val.vstr "ip")]

/-- A one-attribute record dict used in the concrete scenarios. -/
def recW : List (String × Val) := [("msg", Val.vstr "m")]

/-- Configuration with batch threshold 2. -/
def cfgW : Config :=
  { bufferSize := 2, timedFlush := false, raiseOn := false,
    fields := fieldsW, tsField := "timestamp" }

/-- Configuration with batch threshold 1. -/
def cfgT1 : Config :=
  { bufferSize := 1, timedFlush := false, raiseOn := false,
    fields := fieldsW, tsField := "timestamp" }

/-- Configuration with a large batch threshold and swallowed failures. -/
def cfgB : Config :=
  { bufferSize := 10, timedFlush := false, raiseOn := false,
    fields := fieldsW, tsField := "timestamp" }

/-- Fail-fast configuration (raise_on_indexing_exceptions true). -/
def cfgFF : Config :=
  { bufferSize := 10, timedFlush := false, raiseOn := true,
    fields := fieldsW, tsField := "timestamp" }

/-- The normalized entry emit builds from recW at creation time 0. -/
def eW : PyDict :=
  [("host", Val.vstr "h"), ("host_ip", Val.vstr "ip"), ("msg", Val.vstr "m"),
   ("timestamp", Val.vstr "1970-01-01T00:00:00.000Z")]

/-- A buffered batch of one entry. -/
def dW : PyDict := [("msg", Val.vstr "m")]

/-- Handler state with no timer and one buffered entry. -/
def sC1 : HState := { handle := Option.none, live := [], nextId := 0, buffer := [dW] }

/-- Handler state with an armed timer and one buffered entry. -/
def sArmed : HState := { handle := some 0, live := [0], nextId := 1, buffer := [dW] }

theorem eW_spec : emitRec fieldsW "timestamp" recW 0 = Except.ok eW := rfl

/-- C1 is refuted on the code: with fail-fast off, a flush whose bulk
transmission fails returns normally with the failed batch STILL held in
the buffer (line 350 `self._buffer = []` is skipped when bulk raises), so
the batch is retained for future delivery rather than lost. -/
theorem C1_counterexample :
    flush cfgB false sC1 =
      Res.ok { handle := some 0, live := [0], nextId := 1, buffer := [dW] }
        [Ev.bulkSend [dW], Ev.errLog, Ev.armTimer] ∧
    (flush cfgB false sC1).state.buffer = [dW] := ⟨rfl, rfl⟩

/-- C1 (amended): when the bulk transmission raises and the sink is not
fail-fast, flush returns normally, the failed batch is retained in the
buffer for future delivery (not lost), a new timer is armed, and a later
successful flush transmits exactly the retained batch. -/
theorem C1_failed_batch_retained (cfg : Config) (s : HState)
    (hr : cfg.raiseOn = false) (hb : s.buffer ≠ []) :
    ∃ s1 : HState,
      flush cfg false s =
        Res.ok s1 ((cancelAndClearTimer s).2 ++ [Ev.bulkSend s.buffer] ++
          [Ev.errLog] ++ [Ev.armTimer]) ∧
      s1.buffer = s.buffer ∧ s1.handle.isSome = true ∧
      (∀ s2 evs2, flush cfg true s1 = Res.ok s2 evs2 →
        Ev.bulkSend s.buffer ∈ evs2 ∧ s2.buffer = []) := by
  have hbuf := cancelAndClearTimer_buffer s
  have hch := cancelAndClearTimer_handle s
  have hsch := scheduleFlush_of_none _ hch
  refine ⟨(scheduleFlush (cancelAndClearTimer s).1).1, ?_, ?_, ?_, ?_⟩
  · rw [flush_fail_noraise cfg s hr hb, hsch.2.2]
  · rw [scheduleFlush_buffer, hbuf]
  · rw [hsch.1]
    rfl
  · intro s2 evs2 h2
    have hbuf1 : (scheduleFlush (cancelAndClearTimer s).1).1.buffer = s.buffer := by
      rw [scheduleFlush_buffer, hbuf]
    rw [flush_success cfg _ (by rw [hbuf1]; exact hb), hbuf1] at h2
    cases h2
    constructor
    · simp
    · rfl

theorem C1_failed_batch_retained_witness :
    ∃ s1 : HState,
      flush cfgB false sC1 =
        Res.ok s1 ((cancelAndClearTimer sC1).2 ++ [Ev.bulkSend sC1.buffer] ++
          [Ev.errLog] ++ [Ev.armTimer]) ∧
      s1.buffer = sC1.buffer ∧ s1.handle.isSome = true ∧
      (∀ s2 evs2, flush cfgB true s1 = Res.ok s2 evs2 →
        Ev.bulkSend sC1.buffer ∈ evs2 ∧ s2.buffer = []) :=
  C1_failed_batch_retained cfgB sC1 rfl (List.cons_ne_nil dW [])

/-- C2: emit appends the normalized record and then flushes synchronously
exactly when the resulting buffer length is at least buffer_size and
timed_flush is false; in every other case it performs no synchronous
flush (no transmission) and instead asks the scheduler. -/
theorem C2_emit_flush_policy (cfg : Config) (bulkOk : Bool) (s : HState)
    (recDict : List (String × Val)) (createdUs : Nat) (entry : PyDict)
    (hok : emitRec cfg.fields cfg.tsField recDict createdUs = Except.ok entry) :
    (cfg.bufferSize ≤ s.buffer.length + 1 ∧ cfg.timedFlush = false →
      emit cfg bulkOk s recDict createdUs =
        flush cfg bulkOk { s with buffer := s.buffer ++ [entry] }) ∧
    (¬ (cfg.bufferSize ≤ s.buffer.length + 1 ∧ cfg.timedFlush = false) →
      emit cfg bulkOk s recDict createdUs =
        Res.ok (scheduleFlush { s with buffer := s.buffer ++ [entry] }).1
          (scheduleFlush { s with buffer := s.buffer ++ [entry] }).2 ∧
      ∀ b : List PyDict,
        Ev.bulkSend b ∉ (scheduleFlush { s with buffer := s.buffer ++ [entry] }).2) := by
  constructor
  · intro hcond
    simp only [emit, hok, tryFlush]
    rw [if_pos]
    simpa using hcond
  · intro hcond
    refine ⟨?_, fun b => (scheduleFlush_events _ b).1⟩
    simp only [emit, hok, tryFlush]
    rw [if_neg]
    simpa using hcond

theorem C2_emit_flush_policy_witness :
    emit cfgT1 true initState recW 0 =
      flush cfgT1 true { initState with buffer := initState.buffer ++ [eW] } :=
  (C2_emit_flush_policy cfgT1 true initState recW 0 eW rfl).1 (by decide)

/-- C3: a failure of the bulk transmission during flush propagates to the
caller iff raise_on_indexing_exceptions is true; when it is false flush
never raises, the failure is written to the error stream and a new flush
is scheduled via the scheduler. -/
theorem C3_raise_propagation (cfg : Config) (bulkOk : Bool) (s : HState) :
    (cfg.raiseOn = false → ∃ s1 evs, flush cfg bulkOk s = Res.ok s1 evs) ∧
    (bulkOk = false → s.buffer ≠ [] →
      ((∃ s1 evs, flush cfg bulkOk s = Res.raised PyErr.transmission s1 evs) ↔
        cfg.raiseOn = true) ∧
      (cfg.raiseOn = false →
        ∃ s1 evs, flush cfg bulkOk s = Res.ok s1 evs ∧
          Ev.errLog ∈ evs ∧ Ev.armTimer ∈ evs)) := by
  refine ⟨fun hr => flush_no_raise cfg bulkOk s (Or.inl hr), ?_⟩
  rintro rfl hb
  have hch := cancelAndClearTimer_handle s
  have hsch := scheduleFlush_of_none _ hch
  refine ⟨⟨?_, ?_⟩, ?_⟩
  · rintro ⟨s1, evs, heq⟩
    cases hro : cfg.raiseOn with
    | true => rfl
    | false =>
        obtain ⟨s1o, evso, hok⟩ := flush_no_raise cfg false s (Or.inl hro)
        rw [hok] at heq
        cases heq
  · intro hro
    exact ⟨_, _, flush_fail_raise cfg s hro hb⟩
  · intro hro
    refine ⟨_, _, flush_fail_noraise cfg s hro hb, ?_, ?_⟩
    · simp
    · rw [hsch.2.2]
      simp

theorem C3_raise_propagation_witness :
    ∃ s1 evs, flush cfgB false sC1 = Res.ok s1 evs ∧ Ev.errLog ∈ evs ∧ Ev.armTimer ∈ evs :=
  ((C3_raise_propagation cfgB false sC1).2 rfl (List.cons_ne_nil dW [])).2 rfl

/-- C4 is refuted on the code: a flush that completes without raising can
leave a nonempty buffer, namely when a transmission failure was swallowed
(fail-fast off). -/
theorem C4_counterexample :
    flush cfgB false sC1 =
      Res.ok { handle := some 0, live := [0], nextId := 1, buffer := [dW] }
        [Ev.bulkSend [dW], Ev.errLog, Ev.armTimer] ∧
    ({ handle := some 0, live := [0], nextId := 1, buffer := [dW] } : HState).buffer.length ≠ 0 :=
  ⟨rfl, by decide⟩

/-- C4 (amended): after a flush that returns without raising the buffer is
empty provided the transmission succeeded (a swallowed failure retains the
batch); and a flush entered with an empty buffer performs no transmission
and does not re-arm the scheduler. -/
theorem C4_flush_empties_buffer (cfg : Config) (bulkOk : Bool) (s : HState) :
    (bulkOk = true → ∀ s1 evs, flush cfg bulkOk s = Res.ok s1 evs → s1.buffer = []) ∧
    (s.buffer = [] →
      flush cfg bulkOk s = Res.ok (cancelAndClearTimer s).1 (cancelAndClearTimer s).2 ∧
      (∀ b, Ev.bulkSend b ∉ (cancelAndClearTimer s).2) ∧
      Ev.armTimer ∉ (cancelAndClearTimer s).2) := by
  constructor
  · rintro rfl s1 evs heq
    cases hbb : s.buffer with
    | nil =>
        rw [flush_empty cfg true s hbb] at heq
        cases heq
        rw [cancelAndClearTimer_buffer s, hbb]
    | cons a l =>
        rw [flush_success cfg s (by rw [hbb]; simp)] at heq
        cases heq
        rfl
  · intro hbe
    exact ⟨flush_empty cfg bulkOk s hbe, fun b => (cancelAndClearTimer_events s b).1,
      (cancelAndClearTimer_events s [dW]).2⟩

theorem C4_flush_empties_buffer_witness :
    flush cfgW true initState =
      Res.ok (cancelAndClearTimer initState).1 (cancelAndClearTimer initState).2 ∧
    (∀ b, Ev.bulkSend b ∉ (cancelAndClearTimer initState).2) ∧
    Ev.armTimer ∉ (cancelAndClearTimer initState).2 :=
  (C4_flush_empties_buffer cfgW true initState).2 rfl

/-- The state reached by: emit below threshold (arms timer 0), close with
a failing transmission (flush cancels 0, re-arms timer 1, close nulls the
handle without cancelling 1), then emit below threshold (arms timer 2). -/
def sBadTrace : HState :=
  (emit cfgB true ((close cfgB false ((emit cfgB true initState recW 0).state)).state)
    recW 0).state

/-- C5 is refuted on the code: close nulls the timer handle without
cancelling the timer that a failed flush re-armed, so that timer stays
live unreferenced and the next schedule arms a second one — a reachable
state holds two live timers. -/
theorem C5_counterexample : Reach cfgB sBadTrace ∧ sBadTrace.live = [1, 2] := by
  constructor
  · exact Reach.step _ _ (Reach.step _ _ (Reach.step _ _ Reach.init
      (Step.stepEmit initState recW 0 true)) (Step.stepClose _ false))
      (Step.stepEmit _ recW 0 true)
  · rfl

/-- C5 (amended): in every state reachable without close at most one live
timer exists; the schedule operation arms only when no handle is held and
is an idempotent no-op when one is armed; and flush on entry nulls the
handle unconditionally and cancels the armed timer when it is alive.
(close nulls the handle without cancelling, which is what makes the
unrestricted reachability claim fail.) -/
theorem C5_single_timer_invariant (cfg : Config) (s : HState) (h : ReachNC cfg s) :
    s.live.length ≤ 1 ∧
    (∀ s0 : HState, s0.handle.isSome = true → scheduleFlush s0 = (s0, [])) ∧
    (∀ s0 : HState, (cancelAndClearTimer s0).1.handle = Option.none) ∧
    (∀ (s0 : HState) (t : Nat), s0.handle = some t → t ∈ s0.live →
      (cancelAndClearTimer s0).1.live = s0.live.erase t ∧
      (cancelAndClearTimer s0).2 = [Ev.cancelTimer]) := by
  refine ⟨timerInv_length s (reachNC_timerInv cfg s h), scheduleFlush_of_isSome,
    cancelAndClearTimer_handle, ?_⟩
  intro s0 t ht hl
  simp only [cancelAndClearTimer, ht]
  rw [if_pos hl]
  exact ⟨rfl, rfl⟩

theorem C5_single_timer_invariant_witness :
    initState.live.length ≤ 1 ∧
    (∀ s0 : HState, s0.handle.isSome = true → scheduleFlush s0 = (s0, [])) ∧
    (∀ s0 : HState, (cancelAndClearTimer s0).1.handle = Option.none) ∧
    (∀ (s0 : HState) (t : Nat), s0.handle = some t → t ∈ s0.live →
      (cancelAndClearTimer s0).1.live = s0.live.erase t ∧
      (cancelAndClearTimer s0).2 = [Ev.cancelTimer]) :=
  C5_single_timer_invariant cfgW initState ReachNC.init

/-- C6 is refuted on the code: an attribute whose value is None is not
always stored as the empty string — for the args attribute the
element-wise str conversion runs first, and iterating None raises a
TypeError out of emit instead. -/
theorem C6_counterexample :
    emitRec fieldsW "timestamp" [("args", Val.vnone)] 0 = Except.error PyErr.typeError ∧
    emit cfgW true initState [("args", Val.vnone)] 0 = Res.raised PyErr.typeError initState [] :=
  ⟨rfl, rfl⟩

/-- C6 (amended): the normalized entry starts from the configured static
fields (later writes override), every record attribute outside the
deny-list msecs/relativeCreated/levelno/created is copied with a None
value stored as the empty string, and an iterable args value is replaced
by the tuple of the element-wise str of its elements — but a None args
raises a TypeError before the None-to-empty-string rule can apply. -/
theorem C6_normalizer (fields : PyDict) (tsField : String)
    (recDict : List (String × Val)) (createdUs : Nat) (entry : PyDict)
    (hok : emitRec fields tsField recDict createdUs = Except.ok entry)
    (hnd : (recDict.map Prod.fst).Nodup) :
    (∀ k v, (k, v) ∈ recDict → k ∉ loggingFilterFields → k ≠ "args" → k ≠ tsField →
      lookup entry k = some (noneToEmpty v)) ∧
    (∀ v es, ("args", v) ∈ recDict → "args" ≠ tsField → pyIterElems v = some es →
      lookup entry "args" = some (Val.vtup (es.map fun e => Val.vstr (pyStr e)))) ∧
    (∀ k, k ∈ loggingFilterFields → k ≠ tsField → lookup fields k = Option.none →
      lookup entry k = Option.none) ∧
    (∀ k v, lookup fields k = some v → k ∉ recDict.map Prod.fst → k ≠ tsField →
      lookup entry k = some v) := by
  obtain ⟨d1, happ, hentry⟩ := emitRec_ok_elim fields tsField recDict createdUs entry hok
  subst hentry
  refine ⟨?_, ?_, ?_, ?_⟩
  · intro k v hm hf ha hts
    rw [lookup_setKey_ne _ _ _ _ (Ne.symm hts)]
    exact applyRecord_mem recDict fields d1 happ hnd k v hm hf ha
  · intro v es hm hts hit
    rw [lookup_setKey_ne _ _ _ _ (Ne.symm hts)]
    have := applyRecord_args recDict fields d1 happ hnd v es hm hit
    simpa [noneToEmpty, isNone] using this
  · intro k hf hts hfl
    rw [lookup_setKey_ne _ _ _ _ (Ne.symm hts),
      applyRecord_filtered recDict fields d1 happ k hf]
    exact hfl
  · intro k v hlv hnm hts
    rw [lookup_setKey_ne _ _ _ _ (Ne.symm hts),
      applyRecord_untouched recDict fields d1 happ k hnm]
    exact hlv

/-- A record with message, iterable args, a deny-listed field and a None
field, used for the C6 scenario. -/
def recA : List (String × Val) :=
  [("msg", Val.vstr "m"), ("args", Val.vtup [Val.vint 3, Val.vstr "a"]),
   ("levelno", Val.vint 20), ("exc_info", Val.vnone)]

/-- The entry emit builds from recA at creation time 0. -/
def eA : PyDict :=
  match emitRec fieldsW "timestamp" recA 0 with
  | .ok d => d
  | .error _ => []

theorem C6_normalizer_witness :
    (∀ k v, (k, v) ∈ recA → k ∉ loggingFilterFields → k ≠ "args" → k ≠ "timestamp" →
      lookup eA k = some (noneToEmpty v)) ∧
    (∀ v es, ("args", v) ∈ recA → "args" ≠ "timestamp" → pyIterElems v = some es →
      lookup eA "args" = some (Val.vtup (es.map fun e => Val.vstr (pyStr e)))) ∧
    (∀ k, k ∈ loggingFilterFields → k ≠ "timestamp" → lookup fieldsW k = Option.none →
      lookup eA k = Option.none) ∧
    (∀ k v, lookup fieldsW k = some v → k ∉ recA.map Prod.fst → k ≠ "timestamp" →
      lookup eA k = some v) :=
  C6_normalizer fieldsW "timestamp" recA 0 eA rfl (by decide)

/-- C7: the normalized entry contains, under the configured timestamp
field name, the creation time rendered in UTC at millisecond resolution
in the exact shape YYYY-MM-DDTHH:MM:SS.mmmZ (three millisecond digits,
trailing Z), for any timestamp whose year fits in four digits. -/
theorem C7_timestamp_format (fields : PyDict) (tsField : String)
    (recDict : List (String × Val)) (createdUs : Nat) (entry : PyDict)
    (hok : emitRec fields tsField recDict createdUs = Except.ok entry)
    (hy : (civilFromDays (createdUs / 86400000000)).1 < 10000) :
    lookup entry tsField = some (Val.vstr (esDatetimeStr createdUs)) ∧
    IsEsDatetimeShape (esDatetimeStr createdUs) := by
  obtain ⟨d1, happ, hentry⟩ := emitRec_ok_elim fields tsField recDict createdUs entry hok
  subst hentry
  exact ⟨lookup_setKey_self d1 tsField _, esDatetimeStr_shape createdUs hy⟩

theorem C7_timestamp_format_witness :
    lookup eW "timestamp" = some (Val.vstr (esDatetimeStr 0)) ∧
    IsEsDatetimeShape (esDatetimeStr 0) :=
  C7_timestamp_format fieldsW "timestamp" recW 0 eW eW_spec (by decide)

/-- C8: for a fixed base name and a fixed day, every index-name policy is
a pure deterministic function of those two inputs, the none policy
returns the base name unchanged, and the weekly policy suffixes the date
of that day's Monday — the day minus its weekday offset, whose weekday
is 0. -/
theorem C8_index_naming (name : String) (today : Nat)
    (hwd : weekdayOf today ≤ today) :
    (∀ (freq : IndexNameFrequency) (n2 : String) (d2 : Nat), n2 = name → d2 = today →
      indexFrequencyFunc freq n2 d2 = indexFrequencyFunc freq name today) ∧
    indexFrequencyFunc IndexNameFrequency.noFreq name today = name ∧
    indexFrequencyFunc IndexNameFrequency.weekly name today =
      name ++ "-" ++ fmtYMDdot (today - weekdayOf today) ∧
    weekdayOf (today - weekdayOf today) = 0 := by
  refine ⟨?_, rfl, rfl, ?_⟩
  · intro freq n2 d2 hn hd
    rw [hn, hd]
  · unfold weekdayOf at hwd ⊢
    omega

theorem C8_index_naming_witness :
    (∀ (freq : IndexNameFrequency) (n2 : String) (d2 : Nat), n2 = "idx" → d2 = 19000 →
      indexFrequencyFunc freq n2 d2 = indexFrequencyFunc freq "idx" 19000) ∧
    indexFrequencyFunc IndexNameFrequency.noFreq "idx" 19000 = "idx" ∧
    indexFrequencyFunc IndexNameFrequency.weekly "idx" 19000 =
      "idx" ++ "-" ++ fmtYMDdot (19000 - weekdayOf 19000) ∧
    weekdayOf (19000 - weekdayOf 19000) = 0 :=
  C8_index_naming "idx" 19000 (by decide)

/-- C9 is refuted on the code: under fail-fast
(raise_on_indexing_exceptions true) a close that performs the final flush
raises when the transmission fails, so a pair of consecutive close calls
can raise on the first. -/
theorem C9_counterexample :
    close cfgFF false sArmed =
      Res.raised PyErr.transmission
        { handle := Option.none, live := [], nextId := 1, buffer := [dW] }
        [Ev.cancelTimer, Ev.bulkSend [dW]] := rfl

/-- C9 (amended): when no transmission failure propagates (fail-fast off,
or the transmission succeeds) close never raises, a second close in a row
returns with no events at all — in particular no transmission — and close
performs its final flush exactly when a timer handle is armed at the
moment of the call (none armed: no effects; armed: exactly flush's
effects, with the handle nulled afterwards). -/
theorem C9_close_idempotent (cfg : Config) (bulkOk : Bool) (s : HState)
    (hsafe : cfg.raiseOn = false ∨ bulkOk = true) :
    ∃ s1 evs1, close cfg bulkOk s = Res.ok s1 evs1 ∧
      s1.handle = Option.none ∧
      close cfg bulkOk s1 = Res.ok { s1 with handle := Option.none } [] ∧
      (s.handle = Option.none → s1 = { s with handle := Option.none } ∧ evs1 = []) ∧
      (∀ sf evsf, flush cfg bulkOk s = Res.ok sf evsf → s.handle.isSome = true →
        s1 = { sf with handle := Option.none } ∧ evs1 = evsf) := by
  cases hh : s.handle with
  | none =>
      refine ⟨{ s with handle := Option.none }, [], ?_, rfl, rfl,
        fun _ => ⟨rfl, rfl⟩, ?_⟩
      · simp only [close, hh]
      · intro sf evsf _ hsome
        simp at hsome
  | some t =>
      obtain ⟨sf, evsf, hfl⟩ := flush_no_raise cfg bulkOk s hsafe
      refine ⟨{ sf with handle := Option.none }, evsf, ?_, rfl, rfl, ?_, ?_⟩
      · simp only [close, hh, hfl]
      · intro hcontra
        exact Option.noConfusion hcontra
      · intro sf2 evsf2 hfl2 _
        rw [hfl] at hfl2
        cases hfl2
        exact ⟨rfl, rfl⟩

theorem C9_close_idempotent_witness :
    ∃ s1 evs1, close cfgW true sArmed = Res.ok s1 evs1 ∧
      s1.handle = Option.none ∧
      close cfgW true s1 = Res.ok { s1 with handle := Option.none } [] ∧
      (sArmed.handle = Option.none → s1 = { sArmed with handle := Option.none } ∧ evs1 = []) ∧
      (∀ sf evsf, flush cfgW true sArmed = Res.ok sf evsf → sArmed.handle.isSome = true →
        s1 = { sf with handle := Option.none } ∧ evs1 = evsf) :=
  C9_close_idempotent cfgW true sArmed (Or.inr rfl)

/-- C10: the constructor copies the caller's es_additional_fields object
and never mutates it, the handler's own copy gains the host and host_ip
keys, and hence every normalized entry emit later builds contains both
keys. -/
theorem C10_constructor_fields (h : Heap) (r : Nat) (host hostIp : String)
    (hr : r < h.length) :
    heapGet (initAdditionalFields h (some r) host hostIp).1 r = heapGet h r ∧
    lookup (heapGet (initAdditionalFields h (some r) host hostIp).1
      (initAdditionalFields h (some r) host hostIp).2) "host" = some (Val.vstr host) ∧
    lookup (heapGet (initAdditionalFields h (some r) host hostIp).1
      (initAdditionalFields h (some r) host hostIp).2) "host_ip" = some (Val.vstr hostIp) ∧
    (∀ tsField recDict createdUs entry,
      emitRec (heapGet (initAdditionalFields h (some r) host hostIp).1
        (initAdditionalFields h (some r) host hostIp).2) tsField recDict createdUs =
          Except.ok entry →
      hasKey entry "host" = true ∧ hasKey entry "host_ip" = true) := by
  have hlook : ∀ k, lookup (heapGet (initAdditionalFields h (some r) host hostIp).1
      (initAdditionalFields h (some r) host hostIp).2) k =
      lookup (setKey (setKey (heapGet h r) "host" (Val.vstr host))
        "host_ip" (Val.vstr hostIp)) k := by
    intro k
    simp only [initAdditionalFields, heapAlloc, heapSet, heapGet]
    rw [getD_set_self _ _ _ (by simp), getD_append_length]
  refine ⟨?_, ?_, ?_, ?_⟩
  · simp only [initAdditionalFields, heapAlloc, heapSet, heapGet]
    rw [getD_set_ne _ _ _ _ (by omega)]
    exact getD_append_lt _ h r hr
  · rw [hlook, lookup_setKey_ne _ _ _ _ (by decide), lookup_setKey_self]
  · rw [hlook, lookup_setKey_self]
  · intro tsField recDict createdUs entry hok
    obtain ⟨d1, happ, hentry⟩ := emitRec_ok_elim _ tsField recDict createdUs entry hok
    subst hentry
    have hhost : hasKey (heapGet (initAdditionalFields h (some r) host hostIp).1
        (initAdditionalFields h (some r) host hostIp).2) "host" = true := by
      unfold hasKey
      rw [hlook, lookup_setKey_ne _ _ _ _ (by decide), lookup_setKey_self]
      rfl
    have hip : hasKey (heapGet (initAdditionalFields h (some r) host hostIp).1
        (initAdditionalFields h (some r) host hostIp).2) "host_ip" = true := by
      unfold hasKey
      rw [hlook, lookup_setKey_self]
      rfl
    exact ⟨hasKey_setKey_of_hasKey _ _ _ _
        (applyRecord_hasKey recDict _ d1 happ "host" hhost),
      hasKey_setKey_of_hasKey _ _ _ _
        (applyRecord_hasKey recDict _ d1 happ "host_ip" hip)⟩

/-- A one-object heap for the constructor scenario. -/
def heapW : Heap := [[("App", Val.vstr "Test")]]

theorem C10_constructor_fields_witness :
    heapGet (initAdditionalFields heapW (some 0) "hh" "ii").1 0 = heapGet heapW 0 ∧
    lookup (heapGet (initAdditionalFields heapW (some 0) "hh" "ii").1
      (initAdditionalFields heapW (some 0) "hh" "ii").2) "host" = some (Val.vstr "hh") ∧
    lookup (heapGet (initAdditionalFields heapW (some 0) "hh" "ii").1
      (initAdditionalFields heapW (some 0) "hh" "ii").2) "host_ip" = some (Val.vstr "ii") ∧
    (∀ tsField recDict createdUs entry,
      emitRec (heapGet (initAdditionalFields heapW (some 0) "hh" "ii").1
        (initAdditionalFields heapW (some 0) "hh" "ii").2) tsField recDict createdUs =
          Except.ok entry →
      hasKey entry "host" = true ∧ hasKey entry "host_ip" = true) :=
  C10_constructor_fields heapW 0 "hh" "ii" (by decide)

end ESLog
